import Mathlib

/-!
Verification of the risk-scoring core of the advisor-schedule-analyzer
repository (src/app.py).

The embedding translates the two scoring functions and the module-level
risk-evaluation block of the Advisor Tool page into pure Lean functions:
  * `calculate_student_strength` (app.py lines 55-82),
  * `calculate_challenge_score` (app.py lines 85-95),
  * `evaluate` — the module-level composition: most-challenging-course
    selection (lines 186-194), the downgrade detection (lines 196-202)
    and the risk categorization (lines 204-246).

Python floats are modelled as exact rationals (ℚ).  Cell values coming
from the spreadsheet (the class-rank field and the first-generation
flag) are modelled by `PyVal`, a small sum type of the Python values
that can appear there; `Option` models fallible parsing, so the whole
development is total, which reflects that the source never lets an
exception escape (the `try`/`except` around rank parsing maps to the
`Option`-valued `parseRank`).
-/

/-! ### Constants (app.py lines 8-18) -/

def GPA_WEIGHT : ℚ := 40

def RANK_WEIGHT : ℚ := 30

def ACT_WEIGHT : ℚ := 20

def DUAL_BONUS : ℚ := 5

def FIRST_GEN_PENALTY : ℚ := -5

def MAX_STRENGTH : ℚ := 100

def MIN_STRENGTH : ℚ := 0

def RISK_LOW_THRESHOLD : ℚ := 0.15

def RISK_MODERATE_THRESHOLD : ℚ := 0.35

def TUTORING_REDUCTION_FACTOR : ℚ := 0.5

/-! ### Data model -/

/-- A Python value as it can occur in a spreadsheet cell that the code
reads without converting: a string, a number, a boolean, or `None`. -/
inductive PyVal where
  | strVal (s : String)
  | numVal (q : ℚ)
  | boolVal (b : Bool)
  | noneVal
deriving DecidableEq

/-- One row of the student sheet, with exactly the fields
`calculate_student_strength` reads.  GPA and ACT are numeric (the code
does arithmetic on them directly); the class-rank cell and the
first-generation cell are arbitrary Python values; the optional college
GPA models `student_data.get("College GPA", None)` with `pd.notnull`. -/
structure StudentData where
  hsGpa : ℚ
  classRank : PyVal
  act : ℚ
  collegeGpa : Option ℚ
  firstGen : PyVal
deriving DecidableEq

/-- One row of the schedule dataframe: `course_name` and `DFW Rate (%)`. -/
structure Course where
  name : String
  dfwRate : ℚ
deriving DecidableEq

/-- The three risk labels of the Advisor Tool
("Low Risk" / "Moderate Risk" / "High Risk"). -/
inductive Risk where
  | low
  | moderate
  | high
deriving DecidableEq

/-- The result of one schedule evaluation: the numeric challenge score,
the categorical risk label, and the most-challenging course if one was
computed. -/
structure RiskAssessment where
  challengeScore : ℚ
  risk : Risk
  mostChallenging : Option String
deriving DecidableEq

/-! ### Python string-to-int parsing, on the character list of the string -/

/-- Python `str.split(sep)` for a one-character separator, on the character
list: `"abc" ↦ [abc]`, `"a/b" ↦ [a, b]`, `"5/" ↦ [5, []]`, `"" ↦ [[]]`. -/
def splitOnChar (c : Char) : List Char → List (List Char)
  | [] => [[]]
  | x :: xs =>
    match splitOnChar c xs with
    | [] => [[]]
    | h :: t => if x = c then [] :: h :: t else (x :: h) :: t

/-- Strip leading and trailing whitespace, as Python `int()` does. -/
def trimChars (l : List Char) : List Char :=
  ((l.dropWhile Char.isWhitespace).reverse.dropWhile Char.isWhitespace).reverse

/-- Value of a (guaranteed all-digit) character list in base 10. -/
def digitsToNat (l : List Char) : Nat :=
  l.foldl (fun acc c => acc * 10 + (c.toNat - 48)) 0

/-- Python `int(s)` on an ASCII decimal string: optional surrounding
whitespace, optional single sign, then one or more digits; everything
else raises `ValueError`, modelled as `none`. -/
def parsePyInt (l : List Char) : Option Int :=
  let t := trimChars l
  let core :=
    match t with
    | '-' :: rest => rest
    | '+' :: rest => rest
    | _ => t
  let neg :=
    match t with
    | '-' :: _ => true
    | _ => false
  if core ≠ [] ∧ core.all Char.isDigit then
    some (if neg then -(digitsToNat core : Int) else (digitsToNat core : Int))
  else none

/-- The unpacking `position, total = map(int, rank_str.split("/"))` inside the
`try`/`except` of app.py lines 62-68: succeeds exactly when the cell is
a string that splits on `/` into exactly two pieces, both parsing as
Python ints; any other shape (non-string cell, wrong arity, non-numeric
piece) raises inside the `try` and is caught, modelled as `none`. -/
def parseRank (v : PyVal) : Option (Int × Int) :=
  match v with
  | .strVal s =>
    match (splitOnChar '/' s.data).map parsePyInt with
    | [some p, some t] => some (p, t)
    | _ => none
  | _ => none

/-- The rank contribution (app.py lines 60-68): `(1 - position/total) *
RANK_WEIGHT` when the cell parses and `total > 0`, else `0`. -/
def rankScore (v : PyVal) : ℚ :=
  match parseRank v with
  | some (p, t) => if 0 < t then (1 - (p : ℚ) / (t : ℚ)) * RANK_WEIGHT else 0
  | none => 0

/-- Python `==` against the string literal `"yes"` (app.py line 78):
true exactly for the string value `"yes"`; numbers, booleans and `None`
never compare equal to a string. -/
def pyEqYes (v : PyVal) : Bool :=
  match v with
  | .strVal s => s == "yes"
  | _ => false

/-- Python truthiness of a cell value: a string is truthy iff nonempty,
a number iff nonzero, a boolean iff `True`, `None` is falsy. -/
def pyTruthy (v : PyVal) : Bool :=
  match v with
  | .strVal s => s != ""
  | .numVal q => decide (q ≠ 0)
  | .boolVal b => b
  | .noneVal => false

/-! ### Strength (app.py lines 55-82) -/

/-- Translation of `calculate_student_strength` (app.py lines 55-82). -/
def calculate_student_strength (student_data : StudentData) : ℚ :=
  let gpa_score := student_data.hsGpa / 4 * GPA_WEIGHT
  let rank_score := rankScore student_data.classRank
  let act_score := student_data.act / 36 * ACT_WEIGHT
  let dual_bonus : ℚ :=
    match student_data.collegeGpa with
    | some _ => DUAL_BONUS
    | none => 0
  let first_gen_penalty : ℚ :=
    if pyEqYes student_data.firstGen then FIRST_GEN_PENALTY else 0
  let strength := gpa_score + rank_score + act_score + dual_bonus + first_gen_penalty
  max MIN_STRENGTH (min MAX_STRENGTH strength)

/-- The same clamped sum with the rank term and the first-generation
penalty term passed explicitly, used to state which term the code
actually contributes in each case. -/
def strengthWithParts (student_data : StudentData) (rank_term pen : ℚ) : ℚ :=
  let gpa_score := student_data.hsGpa / 4 * GPA_WEIGHT
  let act_score := student_data.act / 36 * ACT_WEIGHT
  let dual_bonus : ℚ :=
    match student_data.collegeGpa with
    | some _ => DUAL_BONUS
    | none => 0
  max MIN_STRENGTH (min MAX_STRENGTH (gpa_score + rank_term + act_score + dual_bonus + pen))

/-- Strength with the code's rank term but an explicitly given
first-generation penalty term. -/
def strengthWithPenalty (student_data : StudentData) (pen : ℚ) : ℚ :=
  strengthWithParts student_data (rankScore student_data.classRank) pen

/-- Strength with the code's first-generation penalty term but an
explicitly given rank term. -/
def strengthWithRank (student_data : StudentData) (rank_term : ℚ) : ℚ :=
  strengthWithParts student_data rank_term
    (if pyEqYes student_data.firstGen then FIRST_GEN_PENALTY else 0)

/-! ### Challenge score (app.py lines 85-95) -/

/-- One iteration of the tutoring loop (app.py lines 90-93): halve the
rate of every schedule row whose name equals the tutored name `t`. -/
def tutorStep (rows : List Course) (t : String) : List Course :=
  rows.map fun c =>
    if c.name = t then { name := c.name, dfwRate := c.dfwRate * TUTORING_REDUCTION_FACTOR }
    else c

/-- The adjusted schedule after the whole tutoring loop: the loop
`for course in tutored_courses` applied in order. -/
def adjustedDfw (schedule : List Course) (tutored : List String) : List Course :=
  tutored.foldl tutorStep schedule

/-- Translation of `calculate_challenge_score` (app.py lines 85-95): `0` on an empty
schedule, otherwise the mean of the tutoring-adjusted DFW rates scaled
by `(1 - strength/100)`. -/
def calculate_challenge_score (student_strength : ℚ) (schedule : List Course)
    (tutored : List String) : ℚ :=
  if schedule.isEmpty then 0
  else
    let adjusted := adjustedDfw schedule tutored
    let avg_dfw := (adjusted.map Course.dfwRate).sum / (adjusted.length : ℚ)
    (avg_dfw / 100) * (1 - student_strength / 100)

/-! ### Module-level evaluation (app.py lines 184-246) -/

/-- The running-best scan behind `Series.idxmax`: keep the current best
unless a strictly larger rate appears, so the first occurrence of the
maximum wins. -/
def mostChallengingAux (best : Course) : List Course → Course
  | [] => best
  | c :: cs => mostChallengingAux (if best.dfwRate < c.dfwRate then c else best) cs

/-- Model of `df.loc[series.idxmax(), "course_name"]`: the name of the first row
holding the maximal rate, `none` on an empty frame. -/
def seriesIdxmaxName : List Course → Option String
  | [] => none
  | c :: cs => some (mostChallengingAux c cs).name

/-- The threshold categorization (app.py lines 205-213 and 229-246). -/
def thresholdRisk (score : ℚ) : Risk :=
  if score < RISK_LOW_THRESHOLD then .low
  else if score < RISK_MODERATE_THRESHOLD then .moderate
  else .high

/-- One step down the risk ladder (app.py lines 216-225): High becomes
Moderate, Moderate becomes Low, Low stays Low. -/
def downgradeRisk : Risk → Risk
  | .high => .moderate
  | .moderate => .low
  | .low => .low

/-- Python truthiness of `initial_most_challenging` (app.py line 202):
`None` and the empty string are falsy. -/
def optionTruthy (o : Option String) : Bool :=
  match o with
  | some s => s != ""
  | none => false

/-- The downgrade condition of app.py lines 196-202: the pre-tutoring
most-challenging course exists (pre-tutoring challenge score at least
`RISK_LOW_THRESHOLD` and nonempty schedule), is truthy, and occurs in
the tutored list. -/
def downgradeApplies (student_strength : ℚ) (schedule : List Course)
    (tutored : List String) : Bool :=
  let initial_challenge_score := calculate_challenge_score student_strength schedule []
  let initial_most_challenging : Option String :=
    if RISK_LOW_THRESHOLD ≤ initial_challenge_score ∧ ¬schedule.isEmpty then
      seriesIdxmaxName schedule
    else none
  if optionTruthy initial_most_challenging then
    match initial_most_challenging with
    | some c => decide (c ∈ tutored)
    | none => false
  else false

/-- The module-level evaluation block of the Advisor Tool page
(app.py lines 184-246): challenge score, most-challenging course from
the tutoring-adjusted rates when the score reaches the Low threshold,
and the risk label — thresholds on the current score normally, the
downgraded pre-tutoring label when the downgrade fires. -/
def evaluate (student_strength : ℚ) (schedule : List Course)
    (tutored : List String) : RiskAssessment :=
  let challenge_score := calculate_challenge_score student_strength schedule tutored
  let most_challenging : Option String :=
    if RISK_LOW_THRESHOLD ≤ challenge_score ∧ ¬schedule.isEmpty then
      seriesIdxmaxName (adjustedDfw schedule tutored)
    else none
  let initial_challenge_score := calculate_challenge_score student_strength schedule []
  let initial_risk := thresholdRisk initial_challenge_score
  let risk :=
    if downgradeApplies student_strength schedule tutored then downgradeRisk initial_risk
    else thresholdRisk challenge_score
  { challengeScore := challenge_score, risk := risk, mostChallenging := most_challenging }

/-! ### Structural lemmas about the tutoring adjustment -/

theorem adjustedDfw_nil (schedule : List Course) : adjustedDfw schedule [] = schedule := rfl

theorem adjustedDfw_cons (schedule : List Course) (t : String) (ts : List String) :
    adjustedDfw schedule (t :: ts) = adjustedDfw (tutorStep schedule t) ts := rfl

/-- Closed form of the tutoring loop: each row's rate is multiplied by
the reduction factor once per occurrence of its name in the tutored
list. -/
theorem adjustedDfw_eq_map (schedule : List Course) (tutored : List String) :
    adjustedDfw schedule tutored =
      schedule.map fun c =>
        { name := c.name,
          dfwRate := c.dfwRate * TUTORING_REDUCTION_FACTOR ^ (tutored.count c.name) } := by
  induction tutored generalizing schedule with
  | nil =>
      rw [adjustedDfw_nil]
      simp only [List.count_nil, pow_zero, mul_one]
      exact (List.map_id schedule).symm
  | cons t ts ih =>
      rw [adjustedDfw_cons, ih (tutorStep schedule t)]
      unfold tutorStep
      rw [List.map_map]
      refine congrArg (fun f => List.map f schedule) (funext fun c => ?_)
      simp only [Function.comp_apply]
      by_cases h : c.name = t
      · rw [if_pos h]
        have hcount : (t :: ts).count c.name = ts.count c.name + 1 := by
          simp [List.count_cons, h]
        show Course.mk c.name (c.dfwRate * TUTORING_REDUCTION_FACTOR *
            TUTORING_REDUCTION_FACTOR ^ (ts.count c.name)) = _
        rw [hcount, pow_succ]
        exact congrArg (Course.mk c.name) (by ring)
      · rw [if_neg h]
        have hcount : (t :: ts).count c.name = ts.count c.name := by
          simp [List.count_cons, Ne.symm h]
        rw [hcount]

theorem adjustedDfw_rates (schedule : List Course) (tutored : List String) :
    (adjustedDfw schedule tutored).map Course.dfwRate =
      schedule.map fun c => c.dfwRate * TUTORING_REDUCTION_FACTOR ^ (tutored.count c.name) := by
  rw [adjustedDfw_eq_map, List.map_map]
  rfl

theorem adjustedDfw_length (schedule : List Course) (tutored : List String) :
    (adjustedDfw schedule tutored).length = schedule.length := by
  rw [adjustedDfw_eq_map, List.length_map]

/-- Closed form of `calculate_challenge_score` on a nonempty schedule. -/
theorem challenge_score_closed (s : ℚ) (sch : List Course) (tut : List String)
    (hne : sch ≠ []) :
    calculate_challenge_score s sch tut =
      ((sch.map fun c => c.dfwRate * TUTORING_REDUCTION_FACTOR ^ (tut.count c.name)).sum
        / (sch.length : ℚ) / 100) * (1 - s / 100) := by
  simp only [calculate_challenge_score, adjustedDfw_rates, adjustedDfw_length]
  rw [if_neg]
  simp [hne]

/-! ### First-occurrence argmax of the rate column -/

/-- The running-best scan returns an element of `best :: cs` that is
strictly larger than everything before it and at least as large as
everything after it: exactly the first occurrence of the maximum, as
`Series.idxmax` ties are resolved. -/
theorem mostChallengingAux_spec (cs : List Course) (best : Course) :
    ∃ l1 c l2, best :: cs = l1 ++ c :: l2 ∧ mostChallengingAux best cs = c ∧
      (∀ d ∈ l1, d.dfwRate < c.dfwRate) ∧ (∀ d ∈ l2, d.dfwRate ≤ c.dfwRate) := by
  induction cs generalizing best with
  | nil => exact ⟨[], best, [], rfl, rfl, by simp, by simp⟩
  | cons c2 cs ih =>
      have hstep : mostChallengingAux best (c2 :: cs) =
          mostChallengingAux (if best.dfwRate < c2.dfwRate then c2 else best) cs := rfl
      by_cases h : best.dfwRate < c2.dfwRate
      · obtain ⟨l1, c, l2, hdec, hres, h1, h2⟩ := ih c2
        refine ⟨best :: l1, c, l2, ?_, ?_, ?_, h2⟩
        · rw [List.cons_append, ← hdec]
        · rw [hstep, if_pos h, hres]
        · intro d hd
          have hc2le : c2.dfwRate ≤ c.dfwRate := by
            cases l1 with
            | nil =>
                rw [List.nil_append] at hdec
                injection hdec with h1' h2'
                exact le_of_eq (congrArg Course.dfwRate h1')
            | cons a l1' =>
                rw [List.cons_append] at hdec
                injection hdec with ha hrest
                rw [ha]
                exact le_of_lt (h1 a (List.mem_cons_self a l1'))
          rcases List.mem_cons.mp hd with rfl | hd'
          · exact lt_of_lt_of_le h hc2le
          · exact h1 d hd'
      · obtain ⟨l1, c, l2, hdec, hres, h1, h2⟩ := ih best
        have hres' : mostChallengingAux best (c2 :: cs) = c := by
          rw [hstep, if_neg h, hres]
        cases l1 with
        | nil =>
            rw [List.nil_append] at hdec
            injection hdec with hc hl2
            refine ⟨[], c, c2 :: cs, by rw [List.nil_append, hc], hres', by simp, ?_⟩
            intro d hd
            rcases List.mem_cons.mp hd with rfl | hd'
            · rw [← hc]
              exact le_of_not_lt h
            · exact h2 d (hl2 ▸ hd')
        | cons a l1' =>
            rw [List.cons_append] at hdec
            injection hdec with ha hrest
            refine ⟨best :: c2 :: l1', c, l2, ?_, hres', ?_, h2⟩
            · rw [List.cons_append, List.cons_append, ← hrest]
            · intro d hd
              have hbestlt : best.dfwRate < c.dfwRate := by
                rw [ha]
                exact h1 a (List.mem_cons_self a l1')
              rcases List.mem_cons.mp hd with rfl | hd2
              · exact hbestlt
              · rcases List.mem_cons.mp hd2 with rfl | hd3
                · exact lt_of_le_of_lt (le_of_not_lt h) hbestlt
                · exact h1 d (List.mem_cons_of_mem a hd3)

/-! ### C1: risk categorization -/

/-- C1 (amended): the returned risk label follows the fixed thresholds
on the computed challenge score whenever the tutoring downgrade does
not fire; when the downgrade fires (the pre-tutoring most-challenging
course exists and is in the tutoring set), the label is instead the
pre-tutoring label moved down one level. -/
theorem risk_category_rule (s : ℚ) (sch : List Course) (tut : List String) :
    (downgradeApplies s sch tut = false →
      (evaluate s sch tut).risk = thresholdRisk (calculate_challenge_score s sch tut)) ∧
    (downgradeApplies s sch tut = true →
      (evaluate s sch tut).risk =
        downgradeRisk (thresholdRisk (calculate_challenge_score s sch []))) := by
  constructor
  · intro h
    show (if downgradeApplies s sch tut = true then _ else _) = _
    rw [h]
    simp
  · intro h
    show (if downgradeApplies s sch tut = true then _ else _) = _
    rw [h]
    simp

/-- C1 witness: a concrete run in which the downgrade fires and the
label is the downgraded pre-tutoring label. -/
theorem risk_category_rule_witness :
    downgradeApplies 0 [⟨"A", 80⟩] ["A"] = true ∧
    (evaluate 0 [⟨"A", 80⟩] ["A"]).risk =
      downgradeRisk (thresholdRisk (calculate_challenge_score 0 [⟨"A", 80⟩] [])) := by
  have h : downgradeApplies 0 [⟨"A", 80⟩] ["A"] = true := by with_unfolding_all rfl
  exact ⟨h, (risk_category_rule 0 [⟨"A", 80⟩] ["A"]).2 h⟩

/-- C1 counterexample: with one course of DFW rate 80 tutored at
strength 0, the challenge score is 2/5 — at least the High threshold —
yet the returned label is Moderate, not the label the fixed thresholds
give, so the label is not determined solely by the score. -/
theorem risk_not_determined_by_score :
    (evaluate 0 [⟨"A", 80⟩] ["A"]).challengeScore = 2/5 ∧
    RISK_MODERATE_THRESHOLD ≤ (2/5 : ℚ) ∧
    (evaluate 0 [⟨"A", 80⟩] ["A"]).risk ≠
      thresholdRisk ((evaluate 0 [⟨"A", 80⟩] ["A"]).challengeScore) := by
  refine ⟨by with_unfolding_all rfl, by norm_num [RISK_MODERATE_THRESHOLD], ?_⟩
  have h1 : (evaluate 0 [⟨"A", 80⟩] ["A"]).risk = Risk.moderate := by with_unfolding_all rfl
  have h2 : thresholdRisk ((evaluate 0 [⟨"A", 80⟩] ["A"]).challengeScore) = Risk.high := by
    with_unfolding_all rfl
  rw [h1, h2]
  simp

/-! ### C7: empty schedule -/

/-- C7: an empty schedule is a valid input; it evaluates to challenge
score 0, Low risk, and no most-challenging course, for every strength
and tutoring set. -/
theorem evaluate_empty_schedule (s : ℚ) (tut : List String) :
    evaluate s [] tut = { challengeScore := 0, risk := Risk.low, mostChallenging := none } := by
  have h0 : ∀ tl : List String, calculate_challenge_score s [] tl = 0 := fun _ => rfl
  have hth : thresholdRisk 0 = Risk.low := by
    unfold thresholdRisk
    rw [if_pos]
    norm_num [RISK_LOW_THRESHOLD]
  have hdg : downgradeApplies s [] tut = false := by
    unfold downgradeApplies
    simp
  show RiskAssessment.mk _ _ _ = _
  rw [RiskAssessment.mk.injEq]
  refine ⟨h0 tut, ?_, by simp⟩
  rw [hdg]
  simp [h0 tut, hth]

/-! ### C9: most-challenging-course selection -/

/-- C9 (amended): the most-challenging course is computed exactly when
the challenge score is at least the Low threshold — regardless of the
displayed risk label, which the tutoring downgrade can move to Low even
while the course is present — and when computed it is the first course
of the tutoring-adjusted schedule holding the maximal effective rate
(strictly larger than every earlier row, at least as large as every
later row). -/
theorem most_challenging_selection (s : ℚ) (sch : List Course) (tut : List String) :
    (calculate_challenge_score s sch tut < RISK_LOW_THRESHOLD →
      (evaluate s sch tut).mostChallenging = none) ∧
    (RISK_LOW_THRESHOLD ≤ calculate_challenge_score s sch tut →
      ∃ l1 c l2, adjustedDfw sch tut = l1 ++ c :: l2 ∧
        (evaluate s sch tut).mostChallenging = some c.name ∧
        (∀ d ∈ l1, d.dfwRate < c.dfwRate) ∧ (∀ d ∈ l2, d.dfwRate ≤ c.dfwRate)) := by
  constructor
  · intro hlt
    show (if RISK_LOW_THRESHOLD ≤ calculate_challenge_score s sch tut ∧ ¬sch.isEmpty then
        seriesIdxmaxName (adjustedDfw sch tut) else none) = none
    rw [if_neg]
    intro hc
    exact absurd hc.1 (not_le.mpr hlt)
  · intro hle
    have hne : sch ≠ [] := by
      rintro rfl
      have h0 : calculate_challenge_score s [] tut = 0 := rfl
      rw [h0] at hle
      norm_num [RISK_LOW_THRESHOLD] at hle
    obtain ⟨c0, cs0, h0⟩ : ∃ c0 cs0, adjustedDfw sch tut = c0 :: cs0 := by
      cases hadj : adjustedDfw sch tut with
      | nil =>
          exfalso
          apply hne
          have := adjustedDfw_length sch tut
          rw [hadj] at this
          exact List.length_eq_zero.mp this.symm
      | cons a as => exact ⟨a, as, rfl⟩
    obtain ⟨l1, c, l2, hdec, hres, h1, h2⟩ := mostChallengingAux_spec cs0 c0
    refine ⟨l1, c, l2, by rw [h0, hdec], ?_, h1, h2⟩
    show (if RISK_LOW_THRESHOLD ≤ calculate_challenge_score s sch tut ∧ ¬sch.isEmpty then
        seriesIdxmaxName (adjustedDfw sch tut) else none) = some c.name
    rw [if_pos ⟨hle, by simp [hne]⟩, h0]
    show some (mostChallengingAux c0 cs0).name = some c.name
    rw [hres]

/-- C9 witness: a one-course schedule with score 0.3 ≥ 0.15; the flagged
course is the single course. -/
theorem most_challenging_selection_witness :
    RISK_LOW_THRESHOLD ≤ calculate_challenge_score 0 [⟨"A", 30⟩] [] ∧
    (∃ l1 c l2, adjustedDfw [⟨"A", 30⟩] [] = l1 ++ c :: l2 ∧
      (evaluate 0 [⟨"A", 30⟩] []).mostChallenging = some c.name ∧
      (∀ d ∈ l1, d.dfwRate < c.dfwRate) ∧ (∀ d ∈ l2, d.dfwRate ≤ c.dfwRate)) := by
  have h : RISK_LOW_THRESHOLD ≤ calculate_challenge_score 0 [⟨"A", 30⟩] [] := by
    with_unfolding_all rfl
  exact ⟨h, (most_challenging_selection 0 [⟨"A", 30⟩] []).2 h⟩

/-- C9 counterexample: rates 34 and 30 with the 34-course tutored give a
post-tutoring score of 0.235 ≥ 0.15, so a most-challenging course
("B") is present, while the downgrade makes the displayed label Low —
refuting "absent for Low-risk results". -/
theorem most_challenging_present_low_risk :
    (evaluate 0 [⟨"A", 34⟩, ⟨"B", 30⟩] ["A"]).risk = Risk.low ∧
    (evaluate 0 [⟨"A", 34⟩, ⟨"B", 30⟩] ["A"]).mostChallenging = some "B" := by
  constructor
  · with_unfolding_all rfl
  · with_unfolding_all rfl

/-! ### C2: when the challenge score is zero -/

/-- C2 (amended): the challenge score is 0 on an empty schedule; on a
nonempty schedule it is nonzero provided the tutoring-adjusted rates do
not sum to zero and the strength is not exactly 100 (either of which
makes a factor of the product vanish). -/
theorem challenge_zero_characterization (s : ℚ) (sch : List Course) (tut : List String) :
    (sch = [] → calculate_challenge_score s sch tut = 0) ∧
    (sch ≠ [] →
      (sch.map fun c => c.dfwRate * TUTORING_REDUCTION_FACTOR ^ (tut.count c.name)).sum ≠ 0 →
      s ≠ 100 → calculate_challenge_score s sch tut ≠ 0) := by
  constructor
  · rintro rfl
    rfl
  · intro hne hsum hs
    rw [challenge_score_closed s sch tut hne]
    have hlen : ((sch.length : ℚ)) ≠ 0 := by
      have := List.length_pos.mpr hne
      positivity
    have hfac : 1 - s / 100 ≠ 0 := by
      intro h
      apply hs
      have : s / 100 = 1 := by linarith
      field_simp at this
      linarith
    exact mul_ne_zero (div_ne_zero (div_ne_zero hsum hlen) (by norm_num)) hfac

/-- C2 witness: one untutored course of rate 50 at strength 0 gives a
nonzero score. -/
theorem challenge_zero_characterization_witness :
    (([⟨"A", 50⟩] : List Course) ≠ []) ∧
    ((([⟨"A", 50⟩] : List Course).map
      fun c => c.dfwRate * TUTORING_REDUCTION_FACTOR ^ (([] : List String).count c.name)).sum ≠ 0) ∧
    ((0 : ℚ) ≠ 100) ∧
    calculate_challenge_score 0 [⟨"A", 50⟩] [] ≠ 0 := by
  have h1 : ([⟨"A", 50⟩] : List Course) ≠ [] := by simp
  have h2 : ((([⟨"A", 50⟩] : List Course).map
      fun c => c.dfwRate * TUTORING_REDUCTION_FACTOR ^ (([] : List String).count c.name)).sum ≠ 0) := by
    with_unfolding_all decide
  have h3 : (0 : ℚ) ≠ 100 := by norm_num
  exact ⟨h1, h2, h3, (challenge_zero_characterization 0 [⟨"A", 50⟩] []).2 h1 h2 h3⟩

/-- C2 counterexample: a nonempty schedule whose single course has DFW
rate 0 yields challenge score 0, refuting "nonzero for every non-empty
schedule". -/
theorem challenge_zero_on_nonempty_schedule :
    (([⟨"A", 0⟩] : List Course) ≠ []) ∧
    calculate_challenge_score 50 [⟨"A", 0⟩] [] = 0 := by
  constructor
  · simp
  · with_unfolding_all rfl

/-! ### C5: strength clamping -/

/-- C5: for every profile — any GPA, ACT, rank cell and flag values —
the computed strength lies in the closed interval
[`MIN_STRENGTH`, `MAX_STRENGTH`] = [0, 100]. -/
theorem strength_clamped (sd : StudentData) :
    MIN_STRENGTH ≤ calculate_student_strength sd ∧
      calculate_student_strength sd ≤ MAX_STRENGTH := by
  simp only [calculate_student_strength]
  constructor
  · exact le_max_left _ _
  · exact max_le (by norm_num [MIN_STRENGTH, MAX_STRENGTH]) (min_le_left _ _)

/-! ### C3: first-generation penalty -/

/-- C3 (amended): the −5 first-generation penalty is included in the
strength sum exactly when the flag cell is the string value `"yes"`;
every other cell value — including other truthy values — contributes a
penalty term of 0. -/
theorem first_gen_penalty_rule (sd : StudentData) :
    calculate_student_strength sd =
      strengthWithPenalty sd
        (if sd.firstGen = PyVal.strVal "yes" then FIRST_GEN_PENALTY else 0) := by
  have hiff : pyEqYes sd.firstGen = true ↔ sd.firstGen = PyVal.strVal "yes" := by
    cases sd.firstGen <;> simp [pyEqYes]
  simp only [calculate_student_strength, strengthWithPenalty, strengthWithParts]
  rw [if_congr hiff rfl rfl]

/-- C3 counterexample: the flag value `"no"` is truthy in Python, yet
the strength equals the no-penalty value (60) and differs from the
value with the −5 penalty applied (55), refuting "penalty iff truthy". -/
theorem first_gen_truthy_no_penalty :
    pyTruthy (PyVal.strVal "no") = true ∧
    calculate_student_strength ⟨4, PyVal.noneVal, 36, none, PyVal.strVal "no"⟩ =
      strengthWithPenalty ⟨4, PyVal.noneVal, 36, none, PyVal.strVal "no"⟩ 0 ∧
    calculate_student_strength ⟨4, PyVal.noneVal, 36, none, PyVal.strVal "no"⟩ ≠
      strengthWithPenalty ⟨4, PyVal.noneVal, 36, none, PyVal.strVal "no"⟩ FIRST_GEN_PENALTY := by
  refine ⟨by with_unfolding_all rfl, by with_unfolding_all rfl, ?_⟩
  have h1 : calculate_student_strength ⟨4, PyVal.noneVal, 36, none, PyVal.strVal "no"⟩ = 60 := by
    with_unfolding_all rfl
  have h2 : strengthWithPenalty ⟨4, PyVal.noneVal, 36, none, PyVal.strVal "no"⟩
      FIRST_GEN_PENALTY = 55 := by
    with_unfolding_all rfl
  rw [h1, h2]
  norm_num

/-! ### C6: malformed rank input -/

/-- C6: whenever the rank cell fails to parse as two integers separated
by "/" (non-string cell, non-numeric text, wrong arity) or parses with
a non-positive total, the rank term is 0 and the strength is the same
as with the rank term forced to 0; the embedding is total, reflecting
that the code never raises on such inputs. -/
theorem rank_parse_failure_safe (sd : StudentData)
    (h : parseRank sd.classRank = none ∨
      ∃ p t, parseRank sd.classRank = some (p, t) ∧ t ≤ 0) :
    rankScore sd.classRank = 0 ∧ calculate_student_strength sd = strengthWithRank sd 0 := by
  have hr : rankScore sd.classRank = 0 := by
    unfold rankScore
    rcases h with h | ⟨p, t, h, ht⟩
    · rw [h]
    · rw [h]
      exact if_neg (not_lt.mpr ht)
  refine ⟨hr, ?_⟩
  simp only [calculate_student_strength, strengthWithRank, strengthWithParts, hr]

/-- C6 witness: the malformed rank string "abc" — it does not parse,
its rank term is 0, and the strength equals the rank-term-0 value. -/
theorem rank_parse_failure_safe_witness :
    (parseRank (PyVal.strVal "abc") = none ∨
      ∃ p t, parseRank (PyVal.strVal "abc") = some (p, t) ∧ t ≤ 0) ∧
    rankScore (PyVal.strVal "abc") = 0 ∧
    calculate_student_strength ⟨3, PyVal.strVal "abc", 20, none, PyVal.noneVal⟩ =
      strengthWithRank ⟨3, PyVal.strVal "abc", 20, none, PyVal.noneVal⟩ 0 := by
  have h : parseRank (PyVal.strVal "abc") = none := by decide
  exact ⟨Or.inl h, rank_parse_failure_safe ⟨3, PyVal.strVal "abc", 20, none, PyVal.noneVal⟩
    (Or.inl h)⟩

/-! ### C4: challenge-score formula with a duplicate-free tutoring set -/

/-- C4: on a nonempty schedule with a duplicate-free tutoring set, the
challenge score is (avgRate/100) × (1 − strength/100), where each
tutored course's rate is multiplied by the fixed factor and an
untutored course's rate is unchanged; the strength enters only through
the factor (1 − strength/100) and is never modified by tutoring. -/
theorem challenge_formula_tutoring (s : ℚ) (sch : List Course) (tut : List String)
    (hne : sch ≠ []) (hnd : tut.Nodup) :
    calculate_challenge_score s sch tut =
      ((sch.map fun c =>
          if c.name ∈ tut then c.dfwRate * TUTORING_REDUCTION_FACTOR else c.dfwRate).sum
        / (sch.length : ℚ) / 100) * (1 - s / 100) := by
  rw [challenge_score_closed s sch tut hne]
  refine congrArg (fun q => (q / (sch.length : ℚ) / 100) * (1 - s / 100)) ?_
  refine congrArg List.sum ?_
  refine congrArg (fun f => List.map f sch) (funext fun c => ?_)
  by_cases hm : c.name ∈ tut
  · rw [if_pos hm, List.count_eq_one_of_mem hnd hm, pow_one]
  · rw [if_neg hm, List.count_eq_zero_of_not_mem hm, pow_zero, mul_one]

/-- C4 witness: two courses of rates 60 and 20 with the first tutored at
strength 0. -/
theorem challenge_formula_tutoring_witness :
    (([⟨"A", 60⟩, ⟨"B", 20⟩] : List Course) ≠ []) ∧
    (["A"] : List String).Nodup ∧
    calculate_challenge_score 0 [⟨"A", 60⟩, ⟨"B", 20⟩] ["A"] =
      ((([⟨"A", 60⟩, ⟨"B", 20⟩] : List Course).map fun c =>
          if c.name ∈ (["A"] : List String) then c.dfwRate * TUTORING_REDUCTION_FACTOR
          else c.dfwRate).sum
        / (([⟨"A", 60⟩, ⟨"B", 20⟩] : List Course).length : ℚ) / 100) * (1 - 0 / 100) := by
  have h1 : ([⟨"A", 60⟩, ⟨"B", 20⟩] : List Course) ≠ [] := by simp
  have h2 : (["A"] : List String).Nodup := by simp
  exact ⟨h1, h2, challenge_formula_tutoring 0 [⟨"A", 60⟩, ⟨"B", 20⟩] ["A"] h1 h2⟩

/-! ### C8: tutoring monotonicity -/

/-- C8: with strength at most 100 and nonnegative rates, adding a course
of the schedule to the tutoring set never increases the challenge
score. -/
theorem tutoring_monotone (s : ℚ) (sch : List Course) (tut : List String) (t : String)
    (hs : s ≤ 100) (hr : ∀ c ∈ sch, 0 ≤ c.dfwRate) (hne : sch ≠ [])
    (hmem : t ∈ sch.map Course.name) :
    calculate_challenge_score s sch (t :: tut) ≤ calculate_challenge_score s sch tut := by
  rw [challenge_score_closed s sch (t :: tut) hne, challenge_score_closed s sch tut hne]
  have hfac : (0 : ℚ) ≤ 1 - s / 100 := by linarith
  have hsum : (sch.map fun c =>
        c.dfwRate * TUTORING_REDUCTION_FACTOR ^ ((t :: tut).count c.name)).sum ≤
      (sch.map fun c => c.dfwRate * TUTORING_REDUCTION_FACTOR ^ (tut.count c.name)).sum := by
    apply List.sum_le_sum
    intro c hc
    have hc0 : 0 ≤ c.dfwRate := hr c hc
    have hcount : tut.count c.name ≤ (t :: tut).count c.name := by
      rw [List.count_cons]
      exact Nat.le_add_right _ _
    have hpow : TUTORING_REDUCTION_FACTOR ^ ((t :: tut).count c.name) ≤
        TUTORING_REDUCTION_FACTOR ^ (tut.count c.name) :=
      pow_le_pow_of_le_one (by norm_num [TUTORING_REDUCTION_FACTOR])
        (by norm_num [TUTORING_REDUCTION_FACTOR]) hcount
    exact mul_le_mul_of_nonneg_left hpow hc0
  have hlen : (0 : ℚ) < (sch.length : ℚ) := by
    have := List.length_pos.mpr hne
    positivity
  have hdiv : (sch.map fun c =>
        c.dfwRate * TUTORING_REDUCTION_FACTOR ^ ((t :: tut).count c.name)).sum
        / (sch.length : ℚ) / 100 ≤
      (sch.map fun c => c.dfwRate * TUTORING_REDUCTION_FACTOR ^ (tut.count c.name)).sum
        / (sch.length : ℚ) / 100 := by
    apply div_le_div_of_nonneg_right ?_ (by norm_num)
    exact div_le_div_of_nonneg_right hsum hlen.le
  exact mul_le_mul_of_nonneg_right hdiv hfac

/-- C8 witness: one course of rate 40 at strength 50; tutoring it lowers
the score from 0.2 to 0.1. -/
theorem tutoring_monotone_witness :
    ((50 : ℚ) ≤ 100) ∧
    (∀ c ∈ ([⟨"A", 40⟩] : List Course), 0 ≤ c.dfwRate) ∧
    (([⟨"A", 40⟩] : List Course) ≠ []) ∧
    ("A" ∈ ([⟨"A", 40⟩] : List Course).map Course.name) ∧
    calculate_challenge_score 50 [⟨"A", 40⟩] ("A" :: []) ≤
      calculate_challenge_score 50 [⟨"A", 40⟩] [] := by
  have h1 : (50 : ℚ) ≤ 100 := by norm_num
  have h2 : ∀ c ∈ ([⟨"A", 40⟩] : List Course), 0 ≤ c.dfwRate := by
    intro c hc
    rcases List.mem_singleton.mp hc with rfl
    norm_num
  have h3 : ([⟨"A", 40⟩] : List Course) ≠ [] := by simp
  have h4 : "A" ∈ ([⟨"A", 40⟩] : List Course).map Course.name := by simp
  exact ⟨h1, h2, h3, h4, tutoring_monotone 50 [⟨"A", 40⟩] [] "A" h1 h2 h3 h4⟩

/-! ### C10: per-occurrence tutoring reduction, unmatched names ignored -/

/-- C10: the reduction applies once per occurrence of the name in the
tutored list (a name occurring k times multiplies the rate by (1/2)^k),
and a tutored name matching no schedule row leaves the score unchanged. -/
theorem tutoring_per_occurrence (s : ℚ) (sch : List Course) (tut : List String) (t : String) :
    (sch ≠ [] →
      calculate_challenge_score s sch tut =
        ((sch.map fun c => c.dfwRate * ((1 : ℚ)/2) ^ (tut.count c.name)).sum
          / (sch.length : ℚ) / 100) * (1 - s / 100)) ∧
    (t ∉ sch.map Course.name →
      calculate_challenge_score s sch (t :: tut) = calculate_challenge_score s sch tut) := by
  have hq : TUTORING_REDUCTION_FACTOR = (1 : ℚ)/2 := by norm_num [TUTORING_REDUCTION_FACTOR]
  constructor
  · intro hne
    rw [challenge_score_closed s sch tut hne, hq]
  · intro hnm
    have hstep : tutorStep sch t = sch := by
      unfold tutorStep
      have h : ∀ c ∈ sch,
          (if c.name = t then
            { name := c.name, dfwRate := c.dfwRate * TUTORING_REDUCTION_FACTOR }
          else c) = c := by
        intro c hc
        rw [if_neg]
        intro hct
        exact hnm (hct ▸ List.mem_map_of_mem Course.name hc)
      calc sch.map _ = sch.map id := List.map_congr_left h
        _ = sch := List.map_id sch
    unfold calculate_challenge_score
    rw [adjustedDfw_cons, hstep]

/-- C10 witness: tutoring "A" twice quarters its rate (score 0.1 from
rate 40), and adding the unmatched name "Z" changes nothing. -/
theorem tutoring_per_occurrence_witness :
    (([⟨"A", 40⟩] : List Course) ≠ []) ∧
    calculate_challenge_score 0 [⟨"A", 40⟩] ["A", "A"] =
      ((([⟨"A", 40⟩] : List Course).map
          fun c => c.dfwRate * ((1 : ℚ)/2) ^ ((["A", "A"] : List String).count c.name)).sum
        / (([⟨"A", 40⟩] : List Course).length : ℚ) / 100) * (1 - 0 / 100) ∧
    ("Z" ∉ ([⟨"A", 40⟩] : List Course).map Course.name) ∧
    calculate_challenge_score 0 [⟨"A", 40⟩] ("Z" :: ["A", "A"]) =
      calculate_challenge_score 0 [⟨"A", 40⟩] ["A", "A"] := by
  have hne : ([⟨"A", 40⟩] : List Course) ≠ [] := by simp
  have hz : "Z" ∉ ([⟨"A", 40⟩] : List Course).map Course.name := by simp
  obtain ⟨ha, hb⟩ := tutoring_per_occurrence 0 [⟨"A", 40⟩] ["A", "A"] "Z"
  exact ⟨hne, ha hne, hz, hb hz⟩
